import Mathlib

/-!
Shallow embedding of the Botpress conversation fetch-and-persist pipeline
(`src/fetchMessages.py`) and the viewer's loader (`src/viewChats.py`).

Network endpoints are modelled as traces of responses consumed one request at
a time; environment variables as an explicit record; the output file as a
list of persisted records; `time.sleep` and HTTP requests as logged events.
Machine floats of the Python source are modelled as exact rationals.
-/

namespace BPChat

/-! ### Environment (credentials) -/

/-- The three credential environment variables read by the script.
A variable may be unset (`none`) or set to a string. -/
structure Env where
  workspaceId : Option String
  botId : Option String
  token : Option String
deriving DecidableEq

/-- Python truthiness of `os.environ.get(...)`: `None` and the empty string
are falsy, any other string is truthy. -/
def truthy : Option String → Bool
  | none => false
  | some s => !s.isEmpty

/-- Mirrors `all([workspace_id, bot_id, token])`. -/
def Env.credsOk (e : Env) : Bool :=
  truthy e.workspaceId && truthy e.botId && truthy e.token

/-! ### Messages and their normalization (fetch_messages, lines 94-110) -/

/-- A raw message object from the messages endpoint. `none` stands for a
missing key; `payload` is an association list standing for the payload dict. -/
structure RawMessage where
  type : Option String
  direction : Option String
  updatedAt : Option String
  payload : Option (List (String × String))
deriving DecidableEq

/-- A normalized message as stored in results: `{type, direction, timestamp,
text}`, with `timestamp` taken from the raw message's `updatedAt`. -/
structure Message where
  type : Option String
  direction : Option String
  timestamp : Option String
  text : String
deriving DecidableEq

/-- Mirrors `f"[{msg_type} message]"` with `msg_type = message.get('type', 'unknown')`. -/
def placeholderText (m : RawMessage) : String :=
  "[" ++ m.type.getD "unknown" ++ " message]"

/-- Mirrors lines 102-108: `if message.get("type") == "text" and payload and
"text" in payload: text = payload["text"] else: placeholder`. An empty
payload dict is falsy in Python, hence the emptiness test. -/
def extractText (m : RawMessage) : String :=
  if m.type = some "text" then
    match m.payload with
    | some p =>
      if p.isEmpty then placeholderText m
      else
        match p.lookup "text" with
        | some t => t
        | none => placeholderText m
    | none => placeholderText m
  else placeholderText m

/-- Mirrors lines 94-110: build the normalized message dict. -/
def normalizeMessage (m : RawMessage) : Message :=
  { type := m.type
    direction := m.direction
    timestamp := m.updatedAt
    text := extractText m }

/-! ### Final sort of messages (fetch_messages, line 147) -/

/-- The sort key of line 147: `m.get("timestamp", "") or ""`, i.e. a missing
or null timestamp is treated as the empty string. -/
def msgKey (m : Message) : String := m.timestamp.getD ""

/-- Code-point lexicographic comparison of character lists: Python's `<=`
on strings, spelled out so that it reduces. -/
def charListLe : List Char → List Char → Bool
  | [], _ => true
  | _ :: _, [] => false
  | a :: as, b :: bs =>
    if a.toNat < b.toNat then true
    else if b.toNat < a.toNat then false
    else charListLe as bs

/-- Python string comparison `a <= b` (code-point lexicographic). -/
def pyStrLe (a b : String) : Bool := charListLe a.data b.data

/-- Non-decreasing comparison of messages by their timestamp key. -/
def msgLe (a b : Message) : Prop := pyStrLe (msgKey a) (msgKey b) = true

instance : DecidableRel msgLe := fun a b =>
  inferInstanceAs (Decidable (pyStrLe (msgKey a) (msgKey b) = true))

/-- Mirrors `processed_messages.sort(key=lambda m: m.get("timestamp", "") or "")`.
Python's sort is stable, and a stable sort is unique, so the stable
insertion sort computes the same list. -/
def sortMessages (ms : List Message) : List Message :=
  List.insertionSort msgLe ms

/-! ### fetch_messages over a trace of message-page responses -/

/-- One response of the messages endpoint to one request: a page of raw
messages with an optional continuation token, an HTTP error (code, reason,
optional decoded body), or any other exception with its string rendering. -/
inductive MsgResp where
  | ok (messages : List RawMessage) (nextToken : Option String)
  | httpError (code : Nat) (reason : String) (body : Option String)
  | exn (message : String)
deriving DecidableEq

/-- The result dict returned by `fetch_messages`. `createdAt`/`updatedAt`
are `none` exactly when the dict omits those keys (the missing-credentials
early return, lines 61-66). -/
structure FetchResult where
  conversation_id : String
  createdAt : Option String
  updatedAt : Option String
  messages : List Message
  has_incoming : Bool
  error : Option String
deriving DecidableEq

/-- Mirrors `s[:200]`: the first 200 characters of a string. -/
def truncate200 (s : String) : String := String.mk (s.data.take 200)

/-- Mirrors lines 121-125: `f"HTTPError: {e.code} {e.reason}"`, extended with
`f" - Body: {error_body[:200]}"` when the body could be read. -/
def httpErrorMessage (code : Nat) (reason : String) (body : Option String) : String :=
  let base := "HTTPError: " ++ toString code ++ " " ++ reason
  match body with
  | some b => base ++ " - Body: " ++ truncate200 b
  | none => base

/-- The error result of lines 128-135 and 137-144. -/
def errorFetchResult (cid createdAt updatedAt msg : String) : FetchResult :=
  { conversation_id := cid
    createdAt := some createdAt
    updatedAt := some updatedAt
    messages := []
    has_incoming := false
    error := some msg }

/-- The success result of lines 146-159: sort the accumulated messages, then
compute `has_incoming` as `any(msg.get("direction") == "incoming" ...)`. -/
def finishFetch (cid createdAt updatedAt : String) (acc : List Message) : FetchResult :=
  let sorted := sortMessages acc
  { conversation_id := cid
    createdAt := some createdAt
    updatedAt := some updatedAt
    messages := sorted
    has_incoming := sorted.any (fun m => m.direction == some "incoming")
    error := none }

/-- The pagination loop of lines 80-144 over a trace of responses, carrying
the accumulator of normalized messages. Returns the result together with the
number of requests issued. An exhausted trace is read as the server ending
pagination. -/
def fetchMessagesGo (cid createdAt updatedAt : String) :
    List Message → List MsgResp → FetchResult × Nat
  | acc, [] => (finishFetch cid createdAt updatedAt acc, 0)
  | acc, resp :: rest =>
    match resp with
    | .ok msgs tok =>
      let acc' := acc ++ msgs.map normalizeMessage
      match tok with
      | some _ =>
        let r := fetchMessagesGo cid createdAt updatedAt acc' rest
        (r.1, r.2 + 1)
      | none => (finishFetch cid createdAt updatedAt acc', 1)
    | .httpError code reason body =>
      (errorFetchResult cid createdAt updatedAt (httpErrorMessage code reason body), 1)
    | .exn m =>
      (errorFetchResult cid createdAt updatedAt ("Unexpected error: " ++ m), 1)

/-- The missing-credentials early return of lines 61-66 (note: no
`createdAt`/`updatedAt` keys in this dict). -/
def missingEnvResult (cid : String) : FetchResult :=
  { conversation_id := cid
    createdAt := none
    updatedAt := none
    messages := []
    has_incoming := false
    error := some "Missing environment variables (checked within fetch_messages)" }

/-- Mirrors `fetch_messages` (lines 33-159): credential check, then the
pagination loop over the server trace. Second component: requests issued. -/
def fetch_messages (env : Env) (cid createdAt updatedAt : String)
    (srv : List MsgResp) : FetchResult × Nat :=
  if env.credsOk then fetchMessagesGo cid createdAt updatedAt [] srv
  else (missingEnvResult cid, 0)

/-! ### ISO-8601 timestamps (datetime.fromisoformat model) -/

/-- Mirrors `s.replace("Z", "+00:00")` (the pattern is a single character, so
replacement is character-wise). -/
def pyReplaceZ (s : String) : String :=
  String.mk (s.data.flatMap (fun c => if c = 'Z' then "+00:00".data else [c]))

/-- Numeric value of a decimal digit character, `none` otherwise. -/
def charDigit (c : Char) : Option Nat :=
  if c.isDigit then some (c.toNat - 48) else none

/-- Read exactly two digits. -/
def read2 : List Char → Option (Nat × List Char)
  | a :: b :: rest => do
    let x ← charDigit a
    let y ← charDigit b
    some (10 * x + y, rest)
  | _ => none

/-- Read exactly four digits. -/
def read4 : List Char → Option (Nat × List Char)
  | a :: b :: c :: d :: rest => do
    let x ← charDigit a
    let y ← charDigit b
    let z ← charDigit c
    let w ← charDigit d
    some (1000 * x + 100 * y + 10 * z + w, rest)
  | _ => none

/-- Consume one expected character. -/
def expectChar (ch : Char) : List Char → Option (List Char)
  | c :: rest => if c = ch then some rest else none
  | [] => none

/-- Read a maximal run of digits. -/
def takeDigits : List Char → List Nat × List Char
  | c :: rest =>
    match charDigit c with
    | some d =>
      let r := takeDigits rest
      (d :: r.1, r.2)
    | none => ([], c :: rest)
  | [] => ([], [])

/-- Gregorian leap year. -/
def isLeap (y : Nat) : Bool :=
  y % 4 = 0 && (y % 100 ≠ 0 || y % 400 = 0)

/-- Days in a month of the proleptic Gregorian calendar. -/
def daysInMonth (y m : Nat) : Nat :=
  if m = 2 then (if isLeap y then 29 else 28)
  else if m = 4 ∨ m = 6 ∨ m = 9 ∨ m = 11 then 30
  else 31

/-- Days from 1970-01-01 to the given civil date (standard era/day-of-era
computation for the proleptic Gregorian calendar); valid for years ≥ 1. -/
def daysFromCivil (y m d : Nat) : Int :=
  let y' := if m ≤ 2 then y - 1 else y
  let era := y' / 400
  let yoe := y' % 400
  let mp := (m + 9) % 12
  let doy := (153 * mp + 2) / 5 + (d - 1)
  let doe := yoe * 365 + yoe / 4 - yoe / 100 + doy
  (era : Int) * 146097 + (doe : Int) - 719468

/-- Read the `YYYY-MM-DD` date prefix. -/
def parseDate (cs : List Char) : Option (Nat × Nat × Nat × List Char) :=
  match read4 cs with
  | none => none
  | some yr =>
    match expectChar '-' yr.2 with
    | none => none
    | some r2 =>
      match read2 r2 with
      | none => none
      | some mr =>
        match expectChar '-' mr.2 with
        | none => none
        | some r4 =>
          match read2 r4 with
          | none => none
          | some dr => some (yr.1, mr.1, dr.1, dr.2)

/-- Read an optional fraction `.d{1,6}`, as microseconds (digits padded to
six places, exactly `fromisoformat`'s precision). -/
def parseFrac : List Char → Option (Nat × List Char)
  | '.' :: rf =>
    let ds := takeDigits rf
    if ds.1.isEmpty ∨ 6 < ds.1.length then none
    else some ((ds.1.foldl (fun acc dg => 10 * acc + dg) 0) * 10 ^ (6 - ds.1.length), ds.2)
  | other => some (0, other)

/-- Read `HH:MM` after an offset sign, requiring the end of input; offset in
microseconds, multiplied by the sign. -/
def parseOffsetTail (sign : Int) (cs : List Char) : Option Int :=
  match read2 cs with
  | none => none
  | some ohr =>
    match expectChar ':' ohr.2 with
    | none => none
    | some rb =>
      match read2 rb with
      | none => none
      | some omr =>
        if 23 < ohr.1 ∨ 59 < omr.1 ∨ !omr.2.isEmpty then none
        else some (sign * ((ohr.1 * 3600 + omr.1 * 60 : Nat) : Int) * 1000000)

/-- Read an optional UTC offset; the boolean reports whether one was present
(an aware datetime in Python terms). -/
def parseOffset : List Char → Option (Int × Bool)
  | [] => some (0, false)
  | '+' :: ro => (parseOffsetTail 1 ro).map (fun q => (q, true))
  | '-' :: ro => (parseOffsetTail (-1) ro).map (fun q => (q, true))
  | _ => none

/-- Read `HH:MM:SS` with optional fraction and offset; result is
microseconds into the day minus the offset, with the awareness flag. -/
def parseTime (cs : List Char) : Option (Int × Bool) :=
  match read2 cs with
  | none => none
  | some hr =>
    match expectChar ':' hr.2 with
    | none => none
    | some r8 =>
      match read2 r8 with
      | none => none
      | some mir =>
        match expectChar ':' mir.2 with
        | none => none
        | some r10 =>
          match read2 r10 with
          | none => none
          | some secr =>
            if 23 < hr.1 ∨ 59 < mir.1 ∨ 59 < secr.1 then none
            else
              match parseFrac secr.2 with
              | none => none
              | some fr =>
                match parseOffset fr.2 with
                | none => none
                | some off =>
                  some ((((hr.1 * 3600 + mir.1 * 60 + secr.1) * 1000000 + fr.1 : Nat) : Int)
                      - off.1,
                    off.2)

/-- Model of `datetime.datetime.fromisoformat` restricted to the shapes this
pipeline meets: `YYYY-MM-DD`, optionally followed by a one-character
separator and `HH:MM:SS`, an optional fraction of one to six digits, and an
optional `±HH:MM` offset. Returns the timestamp as microseconds since epoch
(offset already subtracted; `datetime` stores whole microseconds, so this is
exact) together with whether an offset was present (Python refuses to
subtract a naive from an aware datetime). Range checks follow Python:
year 1-9999, month 1-12, day within the month, hour ≤ 23, minute and
second ≤ 59. -/
def fromisoformatMicro (s : String) : Option (Int × Bool) :=
  match parseDate s.data with
  | none => none
  | some ymdr =>
    match ymdr with
    | (y, mo, d, r5) =>
      if y < 1 ∨ mo < 1 ∨ 12 < mo ∨ d < 1 ∨ daysInMonth y mo < d then none
      else
        let dateMicro : Int := daysFromCivil y mo d * 86400 * 1000000
        match r5 with
        | [] => some (dateMicro, false)
        | _sep :: r6 =>
          match parseTime r6 with
          | none => none
          | some t => some (dateMicro + t.1, t.2)

/-- The timestamp conversion of lines 250-251:
`fromisoformat(s.replace("Z", "+00:00"))`. -/
def parseTimestamp (s : String) : Option (Int × Bool) :=
  fromisoformatMicro (pyReplaceZ s)

/-! ### Persisted conversations and the per-result accept logic -/

/-- One line of the output JSONL file (lines 253-261). `duration` is modelled
as an exact rational number of minutes. -/
structure PersistedConversation where
  conversation_id : String
  messages : List Message
  createdDate : String
  duration : ℚ
  tags : List String
deriving DecidableEq

/-- The transform of lines 250-263 once a result is accepted: read the
`createdAt`/`updatedAt` keys, parse both timestamps, subtract (which requires
equal offset-awareness in Python), take `total_seconds()` and divide by 60,
and build the output record. Any missing key or parse failure raises in
Python and is caught by the `except Exception` of line 284, i.e. yields
`none` (the result is skipped). -/
def persistOf (r : FetchResult) : Option PersistedConversation :=
  match r.createdAt, r.updatedAt with
  | some c, some u =>
    match parseTimestamp c, parseTimestamp u with
    | some sc, some su =>
      if sc.2 = su.2 then
        some
          { conversation_id := r.conversation_id
            messages := r.messages
            createdDate := c
            duration := ((su.1 - sc.1 : Int) : ℚ) / 1000000 / 60
            tags := ["unread"] }
      else none
    | _, _ => none
  | _, _ => none

/-- Python truthiness of the `error` field (`if result["error"]:`). -/
def errorTruthy : Option String → Bool
  | none => false
  | some s => !s.isEmpty

/-- The accept/reject decision of lines 243-263 for one completed result:
skip on truthy `error`; otherwise persist exactly when `has_incoming` and the
metadata transform succeeds. -/
def persistDecision (r : FetchResult) : Option PersistedConversation :=
  if errorTruthy r.error then none
  else if r.has_incoming then persistOf r
  else none

/-- The result-consumption loop of lines 238-286 (completion order taken as
the list order): state is `(saved_count, file contents)`; after each write
the loop breaks once `saved_count >= max_to_save` (line 271), discarding the
remaining results. -/
def processBatch (maxToSave : Nat) :
    Nat → List PersistedConversation → List FetchResult →
    Nat × List PersistedConversation
  | saved, out, [] => (saved, out)
  | saved, out, r :: rs =>
    match persistDecision r with
    | some p =>
      let saved' := saved + 1
      let out' := out ++ [p]
      if maxToSave ≤ saved' then (saved', out')
      else processBatch maxToSave saved' out' rs
    | none => processBatch maxToSave saved out rs

/-! ### The conversation-list loop (fetch_conversations_and_write) -/

/-- One response of the conversation-list endpoint: a page of
`(id, createdAt, updatedAt)` refs with an optional continuation token, an
HTTP error with its status code, or any other exception. -/
inductive ListResp where
  | ok (conversations : List (String × String × String)) (nextToken : Option String)
  | httpError (code : Nat)
  | exn
deriving DecidableEq

/-- Observable effects of the list loop: one request per loop iteration
(carrying the continuation token used, `none` on the first page), and the
fixed `time.sleep(60)` of the 429 branch. -/
inductive Event where
  | request (nextToken : Option String)
  | sleep (seconds : Nat)
deriving DecidableEq

/-- The `while saved_count < max_to_save` loop of lines 204-317 over a trace
of list responses, parameterized by the per-conversation fetch function (the
worker pool of lines 230-238, with completion order equal to batch order).
State: saved count, file contents, current continuation token. Returns the
final count, the file contents, and the event log. Branches: an empty page
breaks (line 223); after a batch, reaching the target breaks (line 289); a
missing continuation token breaks (line 294); HTTP 429 sleeps 60 seconds and
retries with the token unchanged (lines 304-309); any other HTTP error or
exception breaks (lines 310-317). -/
def runAux (fetch : String → String → String → FetchResult) (maxToSave : Nat) :
    Nat → List PersistedConversation → Option String → List ListResp →
    Nat × List PersistedConversation × List Event
  | saved, out, _, [] => (saved, out, [])
  | saved, out, tok, resp :: rest =>
    if saved < maxToSave then
      match resp with
      | .ok convs nextTok =>
        if convs.isEmpty then (saved, out, [.request tok])
        else
          let results := convs.map (fun c => fetch c.1 c.2.1 c.2.2)
          let st := processBatch maxToSave saved out results
          if maxToSave ≤ st.1 then (st.1, st.2, [.request tok])
          else
            match nextTok with
            | some t =>
              let r := runAux fetch maxToSave st.1 st.2 (some t) rest
              (r.1, r.2.1, .request tok :: r.2.2)
            | none => (st.1, st.2, [.request tok])
      | .httpError code =>
        if code = 429 then
          let r := runAux fetch maxToSave saved out tok rest
          (r.1, r.2.1, .request tok :: .sleep 60 :: r.2.2)
        else (saved, out, [.request tok])
      | .exn => (saved, out, [.request tok])
    else (saved, out, [])

/-- Mirrors `fetch_conversations_and_write` (lines 161-324): raise
`ValueError` when a credential is missing (before any request), otherwise run
the list loop from a zero count, an empty file region, and no token. -/
def fetch_conversations_and_write (env : Env)
    (fetch : String → String → String → FetchResult) (srv : List ListResp)
    (maxToSave : Nat) :
    Except String (Nat × List PersistedConversation × List Event) :=
  if env.credsOk then .ok (runAux fetch maxToSave 0 [] none srv)
  else .error "Missing environment variables. Please set BOTPRESS_WORKSPACE_ID, BOTPRESS_BOT_ID, and BOTPRESS_TOKEN"

/-- Mirrors `open(output_file, "w", ...)`: opening in write mode truncates
whatever the file held before. -/
def openWriteMode (_prev : List PersistedConversation) : List PersistedConversation :=
  []

/-- Mirrors `save_conversations_to_jsonl` (lines 326-362): open the output
path in write mode (truncating `prev`), then run the pipeline; the
`ValueError` from the credential check is caught (line 351) and the function
returns 0. Result: final file contents, return value, event log. -/
def save_conversations_to_jsonl (env : Env)
    (fetch : String → String → String → FetchResult) (srv : List ListResp)
    (prev : List PersistedConversation) (maxToSave : Nat) :
    List PersistedConversation × Nat × List Event :=
  let contents := openWriteMode prev
  match fetch_conversations_and_write env fetch srv maxToSave with
  | .ok r => (contents ++ r.2.1, r.1, r.2.2)
  | .error _ => (contents, 0, [])

/-! ### The viewer's loader (viewChats.py, lines 25-40) -/

/-- A conversation record as parsed from one JSONL line; `none` marks a
missing `messages` key. -/
structure ConvRecord where
  conversation_id : Option String
  messages : Option (List Message)
deriving DecidableEq

/-- One line of the input file, as seen by `json.loads`: either unparseable
or a record. -/
inductive JsonLine where
  | bad
  | record (conversation : ConvRecord)
deriving DecidableEq

/-- The per-line decision of lines 31-37: unparseable lines are skipped
(`except json.JSONDecodeError: continue`), and a record is kept exactly when
`conversation.get("messages")` is truthy, i.e. present and non-empty. -/
def keepLine : JsonLine → Option ConvRecord
  | .bad => none
  | .record c =>
    match c.messages with
    | some (_ :: _) => some c
    | _ => none

/-- Mirrors `load_conversations` (lines 25-40), after the file has been read
and split into lines: keep the surviving records, and raise `ValueError`
when none survive. -/
def load_conversations (lines : List JsonLine) : Except String (List ConvRecord) :=
  let convs := lines.filterMap keepLine
  if convs.isEmpty then .error "No conversations found in the file"
  else .ok convs

/-! ### Derived notions used by the verification -/

/-- The batch of results the worker pool hands back for one page of refs
(completion order modelled as submission order). -/
def pageResults (fetch : String → String → String → FetchResult)
    (convs : List (String × String × String)) : List FetchResult :=
  convs.map (fun c => fetch c.1 c.2.1 c.2.2)

/-- How many conversations of one listed page the consumption loop accepts. -/
def pageQ (fetch : String → String → String → FetchResult)
    (convs : List (String × String × String)) : Nat :=
  ((pageResults fetch convs).filterMap persistDecision).length

/-- Total accepted count of a well-chained listing trace: every page is
`ok`, every page before the last is nonempty and carries a continuation
token, and the last page carries none (or the trace ends while a token is
pending). Yields `none` for any other trace. -/
def chainQ (fetch : String → String → String → FetchResult) :
    List ListResp → Option Nat
  | [] => some 0
  | [ListResp.ok convs none] => some (pageQ fetch convs)
  | ListResp.ok convs (some _) :: rest =>
    if convs.isEmpty then none
    else (chainQ fetch rest).map (fun q => pageQ fetch convs + q)
  | _ => none

/-- A prefix of message pages that keeps pagination going: all `ok`, each
with a continuation token. -/
def allOkSome : List MsgResp → Bool
  | [] => true
  | MsgResp.ok _ (some _) :: rest => allOkSome rest
  | _ => false

/-! ### Concrete sample data (used by witnesses and counterexamples) -/

/-- A complete credential environment. -/
def sampleEnv : Env := ⟨some "w", some "b", some "t"⟩

/-- A raw text message with direction `incoming`. -/
def sampleIncoming : RawMessage :=
  ⟨some "text", some "incoming", some "2024-01-01T00:00:02Z", some [("text", "hi")]⟩

/-- A raw non-text message with direction `outgoing` and no timestamp. -/
def sampleOutgoing : RawMessage :=
  ⟨some "image", some "outgoing", none, none⟩

/-- A two-page message trace whose pages arrive out of timestamp order. -/
def sampleMsgTrace : List MsgResp :=
  [.ok [sampleIncoming] (some "t2"), .ok [sampleOutgoing] none]

/-- A fetch of `sampleMsgTrace` under `sampleEnv`. -/
def sampleFetch (cid createdAt updatedAt : String) : FetchResult :=
  (fetch_messages sampleEnv cid createdAt updatedAt sampleMsgTrace).1

/-- A successful result whose `updatedAt` precedes its `createdAt`. -/
def sampleNegResult : FetchResult :=
  sampleFetch "c-neg" "2024-01-01T10:00:00Z" "2024-01-01T09:29:30Z"

/-- A successful result with an incoming message whose `createdAt` does not
parse as an ISO-8601 timestamp. -/
def sampleBadResult : FetchResult :=
  sampleFetch "c-bad" "bad-timestamp" "2024-01-01T00:00:00Z"

/-- A successful result with an incoming message and parseable timestamps
30.5 minutes apart. -/
def sampleGoodResult : FetchResult :=
  sampleFetch "c-good" "2024-01-01T00:00:00Z" "2024-01-01T00:30:30Z"

/-! ### General lemmas -/

theorem charListLe_total : ∀ as bs : List Char,
    charListLe as bs = true ∨ charListLe bs as = true := by
  intro as
  induction as with
  | nil => intro bs; exact Or.inl rfl
  | cons a as ih =>
    intro bs
    cases bs with
    | nil => exact Or.inr rfl
    | cons b bs =>
      rcases Nat.lt_trichotomy a.toNat b.toNat with h | h | h
      · exact Or.inl (by simp [charListLe, h])
      · rcases ih bs with h2 | h2
        · exact Or.inl (by simp [charListLe, h, h2])
        · exact Or.inr (by simp [charListLe, h, h2])
      · exact Or.inr (by simp [charListLe, h])

theorem charListLe_trans : ∀ as bs cs : List Char,
    charListLe as bs = true → charListLe bs cs = true → charListLe as cs = true := by
  intro as
  induction as with
  | nil => intro bs cs _ _; rfl
  | cons a as ih =>
    intro bs cs h1 h2
    cases bs with
    | nil => simp [charListLe] at h1
    | cons b bs =>
      cases cs with
      | nil => simp [charListLe] at h2
      | cons c cs =>
        simp only [charListLe] at h1 h2 ⊢
        by_cases hab : a.toNat < b.toNat
        · by_cases hbc : b.toNat < c.toNat
          · simp [Nat.lt_trans hab hbc]
          · by_cases hcb : c.toNat < b.toNat
            · simp [hbc, hcb] at h2
            · have hac : a.toNat < c.toNat := by omega
              simp [hac]
        · by_cases hba : b.toNat < a.toNat
          · simp [hab, hba] at h1
          · simp [hab, hba] at h1
            by_cases hbc : b.toNat < c.toNat
            · have hac : a.toNat < c.toNat := by omega
              simp [hac]
            · by_cases hcb : c.toNat < b.toNat
              · simp [hbc, hcb] at h2
              · simp [hbc, hcb] at h2
                have hac : ¬ a.toNat < c.toNat := by omega
                have hca : ¬ c.toNat < a.toNat := by omega
                simp [hac, hca]
                exact ih bs cs h1 h2

theorem sortMessages_sorted (ms : List Message) :
    List.Pairwise msgLe (sortMessages ms) := by
  haveI : IsTotal Message msgLe :=
    ⟨fun a b => charListLe_total (msgKey a).data (msgKey b).data⟩
  haveI : IsTrans Message msgLe :=
    ⟨fun _ _ _ h1 h2 => charListLe_trans _ _ _ h1 h2⟩
  exact List.sorted_insertionSort msgLe ms

theorem fetchMessagesGo_messages_of_ok :
    ∀ (srv : List MsgResp) (cid c u : String) (acc : List Message),
      (fetchMessagesGo cid c u acc srv).1.error = none →
      ∃ l, (fetchMessagesGo cid c u acc srv).1.messages = sortMessages l := by
  intro srv
  induction srv with
  | nil => intro cid c u acc _; exact ⟨acc, rfl⟩
  | cons resp rest ih =>
    intro cid c u acc herr
    cases resp with
    | ok msgs tok =>
      cases tok with
      | some t =>
        simp only [fetchMessagesGo] at herr ⊢
        exact ih cid c u _ herr
      | none => exact ⟨acc ++ msgs.map normalizeMessage, rfl⟩
    | httpError code reason body => simp [fetchMessagesGo, errorFetchResult] at herr
    | exn m => simp [fetchMessagesGo, errorFetchResult] at herr

/-- C3: for every successful (`error == null`) result of the message
fetcher, whatever the order and paging of the raw messages in the server
trace, the result's `messages` list is sorted non-decreasing by `timestamp`
under Python string comparison, a missing or null timestamp being treated
as the empty string (and hence sorted first). -/
theorem fetch_messages_sorted (env : Env) (cid c u : String) (srv : List MsgResp)
    (herr : (fetch_messages env cid c u srv).1.error = none) :
    List.Pairwise
      (fun a b : Message => pyStrLe (a.timestamp.getD "") (b.timestamp.getD "") = true)
      (fetch_messages env cid c u srv).1.messages := by
  by_cases hc : env.credsOk
  · rw [fetch_messages, if_pos hc] at herr ⊢
    obtain ⟨l, hl⟩ := fetchMessagesGo_messages_of_ok srv cid c u [] herr
    rw [hl]
    exact sortMessages_sorted l
  · rw [fetch_messages, if_neg hc] at herr
    simp [missingEnvResult] at herr

/-- Witness for C3: a concrete fetch whose pages arrive out of timestamp
order (the second page's message has no timestamp at all). -/
theorem fetch_messages_sorted_witness :
    List.Pairwise
      (fun a b : Message => pyStrLe (a.timestamp.getD "") (b.timestamp.getD "") = true)
      (fetch_messages sampleEnv "c" "x" "y" sampleMsgTrace).1.messages :=
  fetch_messages_sorted sampleEnv "c" "x" "y" sampleMsgTrace rfl

theorem processBatch_no_cap :
    ∀ (rs : List FetchResult) (maxToSave saved : Nat) (out : List PersistedConversation),
      saved + (rs.filterMap persistDecision).length < maxToSave →
      processBatch maxToSave saved out rs =
        (saved + (rs.filterMap persistDecision).length,
          out ++ rs.filterMap persistDecision) := by
  intro rs
  induction rs with
  | nil => intro m s o _; simp [processBatch]
  | cons r rs ih =>
    intro m s o h
    cases hp : persistDecision r with
    | none =>
      rw [List.filterMap_cons_none hp] at h ⊢
      simpa only [processBatch, hp] using ih m s o h
    | some p =>
      rw [List.filterMap_cons_some hp] at h ⊢
      simp only [processBatch, hp]
      rw [if_neg (by simp only [List.length_cons] at h; omega)]
      rw [ih m (s + 1) (o ++ [p]) (by simp only [List.length_cons] at h ⊢; omega)]
      simp only [List.length_cons, Prod.mk.injEq, List.append_assoc, List.singleton_append,
        List.cons_append, List.nil_append]
      exact ⟨by omega, by simp⟩

theorem processBatch_count :
    ∀ (rs : List FetchResult) (maxToSave saved : Nat) (out : List PersistedConversation),
      saved < maxToSave →
      (processBatch maxToSave saved out rs).1 =
        min maxToSave (saved + (rs.filterMap persistDecision).length) := by
  intro rs
  induction rs with
  | nil => intro m s o h; simp [processBatch]; omega
  | cons r rs ih =>
    intro m s o h
    cases hp : persistDecision r with
    | none =>
      rw [List.filterMap_cons_none hp]
      simpa only [processBatch, hp] using ih m s o h
    | some p =>
      rw [List.filterMap_cons_some hp]
      simp only [processBatch, hp, List.length_cons]
      by_cases hm : m ≤ s + 1
      · rw [if_pos hm]; omega
      · rw [if_neg hm]
        rw [ih m (s + 1) (o ++ [p]) (by omega)]
        omega

theorem persistOf_isSome_iff (r : FetchResult) :
    (persistOf r).isSome = true ↔
      ∃ c u sc su, r.createdAt = some c ∧ r.updatedAt = some u ∧
        parseTimestamp c = some sc ∧ parseTimestamp u = some su ∧ sc.2 = su.2 := by
  constructor
  · intro h
    unfold persistOf at h
    cases hc : r.createdAt with
    | none => simp only [hc] at h; simp at h
    | some c =>
      cases hu : r.updatedAt with
      | none => simp only [hc, hu] at h; simp at h
      | some u =>
        simp only [hc, hu] at h
        cases hpc : parseTimestamp c with
        | none => simp only [hpc] at h; simp at h
        | some sc =>
          cases hpu : parseTimestamp u with
          | none => simp only [hpc, hpu] at h; simp at h
          | some su =>
            simp only [hpc, hpu] at h
            by_cases hw : sc.2 = su.2
            · exact ⟨c, u, sc, su, rfl, rfl, hpc, hpu, hw⟩
            · rw [if_neg hw] at h; simp at h
  · rintro ⟨c, u, sc, su, hc, hu, hpc, hpu, hw⟩
    unfold persistOf
    simp only [hc, hu, hpc, hpu]
    rw [if_pos hw]
    rfl

theorem fetchMessagesGo_error_not_empty_str :
    ∀ (srv : List MsgResp) (cid c u : String) (acc : List Message),
      (fetchMessagesGo cid c u acc srv).1.error ≠ some "" := by
  have hdata : ∀ s t : String, (s ++ t).data = s.data ++ t.data := fun _ _ => rfl
  intro srv
  induction srv with
  | nil => intro cid c u acc h; simp [fetchMessagesGo, finishFetch] at h
  | cons resp rest ih =>
    intro cid c u acc
    cases resp with
    | ok msgs tok =>
      cases tok with
      | some t =>
        simp only [fetchMessagesGo]
        exact ih cid c u _
      | none => intro h; simp [fetchMessagesGo, finishFetch] at h
    | httpError code reason body =>
      intro h
      simp only [fetchMessagesGo, errorFetchResult, Option.some.injEq] at h
      have hd := congrArg String.data h
      cases body <;> simp [httpErrorMessage, hdata] at hd
    | exn m =>
      intro h
      simp only [fetchMessagesGo, errorFetchResult, Option.some.injEq] at h
      have hd := congrArg String.data h
      simp [hdata] at hd

theorem fetch_messages_error_not_empty_str (env : Env) (cid c u : String)
    (srv : List MsgResp) : (fetch_messages env cid c u srv).1.error ≠ some "" := by
  by_cases hc : env.credsOk
  · rw [fetch_messages, if_pos hc]
    exact fetchMessagesGo_error_not_empty_str srv cid c u []
  · rw [fetch_messages, if_neg hc]
    intro h
    simp only [missingEnvResult, Option.some.injEq] at h
    have hd := congrArg String.data h
    simp at hd

/-- C1 (amended): in the consumption loop, while the saved count stays below
the target, a consumed result is persisted (appended to the file, the count
incremented) exactly when its `error` is null, `has_incoming` is true, and
its `createdAt`/`updatedAt` are present, parse as ISO-8601 and agree on
offset-awareness (otherwise the metadata transform raises and the
`except Exception` handler skips the result); results failing any of these
are skipped without being written. The `error` fields produced by
`fetch_messages` are never the empty string, so the truthiness test of
`if result["error"]:` coincides with a null test. -/
theorem consumption_persists_iff :
    (∀ (maxToSave saved : Nat) (out : List PersistedConversation) (rs : List FetchResult),
        saved + (rs.filterMap persistDecision).length < maxToSave →
        processBatch maxToSave saved out rs =
          (saved + (rs.filterMap persistDecision).length,
            out ++ rs.filterMap persistDecision)) ∧
    (∀ r : FetchResult, r.error ≠ some "" →
        ((persistDecision r).isSome = true ↔
          r.error = none ∧ r.has_incoming = true ∧
          ∃ c u sc su, r.createdAt = some c ∧ r.updatedAt = some u ∧
            parseTimestamp c = some sc ∧ parseTimestamp u = some su ∧ sc.2 = su.2)) ∧
    (∀ (env : Env) (cid c u : String) (srv : List MsgResp),
        (fetch_messages env cid c u srv).1.error ≠ some "") := by
  refine ⟨fun m s o rs h => processBatch_no_cap rs m s o h, fun r hne => ?_,
    fetch_messages_error_not_empty_str⟩
  unfold persistDecision
  cases he : r.error with
  | some s =>
    have hs : s ≠ "" := fun h => hne (h ▸ he)
    have hse : s.isEmpty = false := by
      rw [Bool.eq_false_iff]
      intro hb
      exact hs ((String.isEmpty_iff s).mp hb)
    have : errorTruthy (some s) = true := by simp [errorTruthy, hse]
    simp [this]
  | none =>
    simp only [errorTruthy, if_false, Bool.false_eq_true]
    cases hi : r.has_incoming with
    | false => simp
    | true => simpa using persistOf_isSome_iff r

/-- Witness for C1: a batch of two results under target 10: the first has a
null error and an incoming message, so it is persisted and the count becomes
1; the second carries an error, so it is skipped. -/
theorem consumption_persists_iff_witness :
    processBatch 10 0 []
        [sampleGoodResult, errorFetchResult "c-err" "x" "y" "HTTPError: 500 err"] =
      (0 + (([sampleGoodResult,
          errorFetchResult "c-err" "x" "y" "HTTPError: 500 err"]).filterMap
            persistDecision).length,
        [] ++ ([sampleGoodResult,
          errorFetchResult "c-err" "x" "y" "HTTPError: 500 err"]).filterMap
            persistDecision) ∧
    (persistDecision sampleGoodResult).isSome = true :=
  ⟨consumption_persists_iff.1 10 0 []
      [sampleGoodResult, errorFetchResult "c-err" "x" "y" "HTTPError: 500 err"]
      (by decide),
    (consumption_persists_iff.2.1 sampleGoodResult (by decide)).mpr
      (by refine ⟨rfl, by decide, "2024-01-01T00:00:00Z", "2024-01-01T00:30:30Z",
        (1704067200000000, true), (1704069030000000, true), rfl, rfl, by decide, by decide, rfl⟩)⟩

/-- Counterexample to C1 as stated: a result produced by the message fetcher
with `error == null` and `has_incoming == true` whose `createdAt` is the
string "bad-timestamp"; the orchestrator consumes it with the target not yet
reached, persists nothing and leaves the saved count at 0, because
`datetime.fromisoformat` raises and line 284 swallows the exception. -/
theorem consumption_persists_iff_counterexample :
    sampleBadResult.error = none ∧ sampleBadResult.has_incoming = true ∧
    processBatch 10 0 [] [sampleBadResult] = (0, []) := by decide

theorem runAux_le :
    ∀ (srv : List ListResp) (fetch : String → String → String → FetchResult)
      (maxToSave saved : Nat) (out : List PersistedConversation) (tok : Option String),
      saved ≤ maxToSave → (runAux fetch maxToSave saved out tok srv).1 ≤ maxToSave := by
  intro srv
  induction srv with
  | nil => intro f m s o t h; simpa [runAux] using h
  | cons resp rest ih =>
    intro f m s o t h
    by_cases hs : s < m
    · cases resp with
      | ok convs nextTok =>
        simp only [runAux, if_pos hs]
        by_cases he : convs.isEmpty
        · simp [he]; omega
        · simp only [he, Bool.false_eq_true, if_false]
          have hcnt := processBatch_count (convs.map fun cv => f cv.1 cv.2.1 cv.2.2) m s o hs
          by_cases hcap : m ≤ (processBatch m s o (convs.map fun cv => f cv.1 cv.2.1 cv.2.2)).1
          · simp only [hcap, if_true]
            omega
          · simp only [hcap, if_false]
            cases nextTok with
            | some t2 =>
              exact ih f m _ _ (some t2) (by omega)
            | none => simp; omega
      | httpError code =>
        simp only [runAux, if_pos hs]
        by_cases h429 : code = 429
        · simp only [h429, if_pos rfl]
          exact ih f m s o t (le_of_lt hs)
        · simp [h429]; omega
      | exn =>
        simp only [runAux, if_pos hs]
        omega
    · simp [runAux, hs]; exact h

theorem runAux_chainQ :
    ∀ (srv : List ListResp) (fetch : String → String → String → FetchResult)
      (maxToSave saved : Nat) (out : List PersistedConversation) (tok : Option String)
      (q : Nat),
      saved < maxToSave → chainQ fetch srv = some q →
      (runAux fetch maxToSave saved out tok srv).1 = min maxToSave (saved + q) := by
  intro srv
  induction srv with
  | nil =>
    intro f m s o t q h hq
    simp only [chainQ, Option.some.injEq] at hq
    simp [runAux, ← hq]
    omega
  | cons resp rest ih =>
    intro f m s o t q h hq
    cases resp with
    | ok convs nextTok =>
      cases nextTok with
      | none =>
        cases rest with
        | nil =>
          simp only [chainQ, Option.some.injEq] at hq
          subst hq
          simp only [runAux, if_pos h]
          by_cases he : convs.isEmpty
          · have hnil : convs = [] := List.isEmpty_iff.mp he
            subst hnil
            simp [pageQ, pageResults]
            omega
          · simp only [he, Bool.false_eq_true, if_false]
            have hcnt := processBatch_count (convs.map fun cv => f cv.1 cv.2.1 cv.2.2) m s o h
            have hpq : pageQ f convs =
                (((convs.map fun cv => f cv.1 cv.2.1 cv.2.2).filterMap persistDecision)).length :=
              rfl
            by_cases hcap : m ≤ (processBatch m s o (convs.map fun cv => f cv.1 cv.2.1 cv.2.2)).1
            · simp only [hcap, if_true]
              omega
            · simp only [hcap, if_false]
              omega
        | cons r2 rs2 =>
          simp [chainQ] at hq
      | some t2 =>
        simp only [chainQ] at hq
        by_cases he : convs.isEmpty
        · simp [he] at hq
        · simp only [he, Bool.false_eq_true, if_false, Option.map_eq_some'] at hq
          obtain ⟨q2, hq2, hsum⟩ := hq
          subst hsum
          simp only [runAux, if_pos h, he, Bool.false_eq_true, if_false]
          have hcnt := processBatch_count (convs.map fun cv => f cv.1 cv.2.1 cv.2.2) m s o h
          have hpq : pageQ f convs =
              (((convs.map fun cv => f cv.1 cv.2.1 cv.2.2).filterMap persistDecision)).length :=
            rfl
          by_cases hcap : m ≤ (processBatch m s o (convs.map fun cv => f cv.1 cv.2.1 cv.2.2)).1
          · simp only [hcap, if_true]
            omega
          · simp only [hcap, if_false]
            rw [ih f m _ _ (some t2) q2 (by omega) hq2]
            omega
    | httpError code => simp [chainQ] at hq
    | exn => simp [chainQ] at hq

/-- C2 (amended): the saved count never exceeds `max_to_save`; and over a
well-chained listing trace whose total of accepted conversations (error
null, incoming message present, timestamps parseable — the last condition
added, since a qualifying result whose timestamps fail to parse is skipped
by the exception handler and not counted) is `q`, the run saves exactly
`min max_to_save q`: exactly `N` when at least `N` are acceptable, exactly
`M` when only `M < N` are, terminating either way. -/
theorem run_saves_min_target :
    (∀ (fetch : String → String → String → FetchResult) (maxToSave : Nat)
        (srv : List ListResp),
        (runAux fetch maxToSave 0 [] none srv).1 ≤ maxToSave) ∧
    (∀ (fetch : String → String → String → FetchResult) (maxToSave : Nat)
        (srv : List ListResp) (q : Nat),
        chainQ fetch srv = some q →
        (runAux fetch maxToSave 0 [] none srv).1 = min maxToSave q) := by
  constructor
  · intro f m srv
    exact runAux_le srv f m 0 [] none (Nat.zero_le m)
  · intro f m srv q hq
    cases m with
    | zero =>
      cases srv with
      | nil => simp [runAux]
      | cons resp rest => simp [runAux]
    | succ m2 =>
      simpa using runAux_chainQ srv f (m2 + 1) 0 [] none q (Nat.succ_pos m2) hq

/-- Witness for C2: a single-page source listing two conversations that are
both accepted, with target 1: the run saves `min 1 2 = 1`; and the bound
conjunct at target 5. -/
theorem run_saves_min_target_witness :
    (runAux sampleFetch 1 0 [] none
        [ListResp.ok [("a", "2024-01-01T00:00:00Z", "2024-01-01T00:30:30Z"),
          ("b", "2024-01-01T00:00:00Z", "2024-01-01T00:30:30Z")] none]).1 = min 1 2 ∧
    (runAux sampleFetch 5 0 [] none
        [ListResp.ok [("a", "2024-01-01T00:00:00Z", "2024-01-01T00:30:30Z"),
          ("b", "2024-01-01T00:00:00Z", "2024-01-01T00:30:30Z")] none]).1 ≤ 5 :=
  ⟨run_saves_min_target.2 sampleFetch 1
      [ListResp.ok [("a", "2024-01-01T00:00:00Z", "2024-01-01T00:30:30Z"),
        ("b", "2024-01-01T00:00:00Z", "2024-01-01T00:30:30Z")] none] 2 (by decide),
    run_saves_min_target.1 sampleFetch 5
      [ListResp.ok [("a", "2024-01-01T00:00:00Z", "2024-01-01T00:30:30Z"),
        ("b", "2024-01-01T00:00:00Z", "2024-01-01T00:30:30Z")] none]⟩

/-- Counterexample to C2 as stated: a source with exactly one qualifying
conversation in the spec's sense (fetch succeeds with `error == null` and an
incoming message) and target `N = 1`; the run terminates having saved 0,
not 1, because the conversation's `createdAt` ("bad-timestamp") fails to
parse during the metadata transform and the result is skipped. -/
theorem run_saves_min_target_counterexample :
    sampleBadResult.error = none ∧ sampleBadResult.has_incoming = true ∧
    sampleFetch "c-bad" "bad-timestamp" "2024-01-01T00:00:00Z" = sampleBadResult ∧
    (runAux sampleFetch 1 0 [] none
        [ListResp.ok [("c-bad", "bad-timestamp", "2024-01-01T00:00:00Z")] none]) =
      (0, [], [Event.request none]) := by decide

/-- C6: on HTTP 429 from the list endpoint the loop records the request and
a fixed 60-second sleep, then continues as the very same loop state — in
particular with the continuation token unchanged, so the same page is
re-requested next (no conversation id skipped or duplicated); on any other
HTTP error, and on any other exception, the loop terminates at once and the
run returns the count saved so far instead of raising. Whenever the loop
body runs, its first recorded event is the request with the current token. -/
theorem list_page_failure_policy :
    (∀ (fetch : String → String → String → FetchResult) (maxToSave saved : Nat)
        (out : List PersistedConversation) (tok : Option String) (rest : List ListResp),
        saved < maxToSave →
        runAux fetch maxToSave saved out tok (ListResp.httpError 429 :: rest) =
          ((runAux fetch maxToSave saved out tok rest).1,
            (runAux fetch maxToSave saved out tok rest).2.1,
            Event.request tok :: Event.sleep 60 ::
              (runAux fetch maxToSave saved out tok rest).2.2)) ∧
    (∀ (fetch : String → String → String → FetchResult) (maxToSave saved : Nat)
        (out : List PersistedConversation) (tok : Option String) (rest : List ListResp)
        (code : Nat),
        saved < maxToSave → code ≠ 429 →
        runAux fetch maxToSave saved out tok (ListResp.httpError code :: rest) =
          (saved, out, [Event.request tok])) ∧
    (∀ (fetch : String → String → String → FetchResult) (maxToSave saved : Nat)
        (out : List PersistedConversation) (tok : Option String) (rest : List ListResp),
        saved < maxToSave →
        runAux fetch maxToSave saved out tok (ListResp.exn :: rest) =
          (saved, out, [Event.request tok])) ∧
    (∀ (fetch : String → String → String → FetchResult) (maxToSave saved : Nat)
        (out : List PersistedConversation) (tok : Option String) (resp : ListResp)
        (rest : List ListResp),
        saved < maxToSave →
        ((runAux fetch maxToSave saved out tok (resp :: rest)).2.2).head? =
          some (Event.request tok)) := by
  refine ⟨?_, ?_, ?_, ?_⟩
  · intro f m s o t rest h
    simp [runAux, h]
  · intro f m s o t rest code h hcode
    simp [runAux, h, hcode]
  · intro f m s o t rest h
    simp [runAux, h]
  · intro f m s o t resp rest h
    cases resp with
    | ok convs nextTok =>
      simp only [runAux, if_pos h]
      by_cases he : convs.isEmpty
      · simp [he]
      · simp only [he, Bool.false_eq_true, if_false]
        by_cases hcap : m ≤ (processBatch m s o (convs.map fun cv => f cv.1 cv.2.1 cv.2.2)).1
        · simp [hcap]
        · simp only [hcap, if_false]
          cases nextTok <;> simp
    | httpError code =>
      simp only [runAux, if_pos h]
      by_cases h429 : code = 429 <;> simp [h429]
    | exn => simp [runAux, h]

/-- Witness for C6: a 429 response makes the loop sleep 60 seconds and
re-request page one with the unchanged (initial) token, after which a 500
response aborts the listing with 0 saved. -/
theorem list_page_failure_policy_witness :
    runAux sampleFetch 3 0 [] none [ListResp.httpError 429, ListResp.httpError 500] =
      (0, [], [Event.request none, Event.sleep 60, Event.request none]) ∧
    runAux sampleFetch 3 0 [] none [ListResp.httpError 500] = (0, [], [Event.request none]) :=
  ⟨(list_page_failure_policy.1 sampleFetch 3 0 [] none [ListResp.httpError 500]
        (by decide)).trans (by decide),
    list_page_failure_policy.2.1 sampleFetch 3 0 [] none [] 500 (by decide) (by decide)⟩

/-- C4: every persisted conversation stores as `duration` exactly the
difference `updatedAt − createdAt` of the two parsed ISO-8601 timestamps,
converted to minutes with sub-second (microsecond) precision, with no
clamping: the stored value is negative exactly when `updatedAt` precedes
`createdAt`. -/
theorem persisted_duration_formula :
    ∀ (r : FetchResult) (p : PersistedConversation) (c u : String) (sc su : Int × Bool),
      persistDecision r = some p →
      r.createdAt = some c → r.updatedAt = some u →
      parseTimestamp c = some sc → parseTimestamp u = some su →
      p.duration = ((su.1 - sc.1 : Int) : ℚ) / 1000000 / 60 ∧
      (su.1 < sc.1 → p.duration < 0) ∧
      (sc.1 < su.1 → 0 < p.duration) ∧
      (sc.1 = su.1 → p.duration = 0) := by
  intro r p c u sc su hp hc hu hpc hpu
  unfold persistDecision at hp
  by_cases het : errorTruthy r.error
  · simp [het] at hp
  · simp only [het, Bool.false_eq_true, if_false] at hp
    cases hi : r.has_incoming with
    | false => rw [hi] at hp; simp at hp
    | true =>
      rw [hi] at hp
      simp only [if_true] at hp
      unfold persistOf at hp
      simp only [hc, hu, hpc, hpu] at hp
      by_cases hw : sc.2 = su.2
      · rw [if_pos hw] at hp
        have hpd : p.duration = ((su.1 - sc.1 : Int) : ℚ) / 1000000 / 60 := by
          cases hp2 : (Option.some.inj hp).symm
          rfl
        refine ⟨hpd, ?_, ?_, ?_⟩
        · intro hlt
          rw [hpd]
          have hneg : ((su.1 - sc.1 : Int) : ℚ) < 0 := by
            exact_mod_cast sub_neg.mpr hlt
          exact div_neg_of_neg_of_pos (div_neg_of_neg_of_pos hneg (by norm_num)) (by norm_num)
        · intro hlt
          rw [hpd]
          have hpos : (0 : ℚ) < ((su.1 - sc.1 : Int) : ℚ) := by
            exact_mod_cast sub_pos.mpr hlt
          exact div_pos (div_pos hpos (by norm_num)) (by norm_num)
        · intro heq
          rw [hpd, heq]
          simp
      · rw [if_neg hw] at hp
        simp at hp

/-- Witness for C4: a concrete persisted conversation whose `updatedAt`
("09:29:30") precedes its `createdAt` ("10:00:00"): the stored duration is
negative (−30.5 minutes), not clamped to zero. -/
theorem persisted_duration_formula_witness :
    ((persistDecision sampleNegResult).getD ⟨"", [], "", 0, []⟩).duration < 0 :=
  (persisted_duration_formula sampleNegResult
      ((persistDecision sampleNegResult).getD ⟨"", [], "", 0, []⟩)
      "2024-01-01T10:00:00Z" "2024-01-01T09:29:30Z"
      (1704103200000000, true) (1704101370000000, true)
      rfl rfl rfl (by decide) (by decide)).2.1 (by decide)

theorem fetchMessagesGo_skip_prefix :
    ∀ (pre : List MsgResp) (cid c u : String) (acc : List Message) (tail : List MsgResp),
      allOkSome pre = true →
      ∃ acc2, fetchMessagesGo cid c u acc (pre ++ tail) =
        ((fetchMessagesGo cid c u acc2 tail).1,
          (fetchMessagesGo cid c u acc2 tail).2 + pre.length) := by
  intro pre
  induction pre with
  | nil => intro cid c u acc tail _; exact ⟨acc, by simp⟩
  | cons resp pre2 ih =>
    intro cid c u acc tail hok
    cases resp with
    | ok msgs tok =>
      cases tok with
      | some t =>
        have hok2 : allOkSome pre2 = true := by simpa [allOkSome] using hok
        obtain ⟨acc2, heq⟩ := ih cid c u (acc ++ msgs.map normalizeMessage) tail hok2
        refine ⟨acc2, ?_⟩
        simp only [List.cons_append, fetchMessagesGo, List.append_eq, heq, List.length_cons,
          Prod.mk.injEq]
        exact ⟨trivial, by omega⟩
      | none => simp [allOkSome] at hok
    | httpError code reason body => simp [allOkSome] at hok
    | exn m => simp [allOkSome] at hok

/-- C5: when a page request for one conversation fails — with an HTTP error
or any other exception — after any number of successful pages, the fetcher
immediately returns (consuming no further responses, hence no retry, and
touching nothing outside this one call) a result with an empty message list,
`has_incoming` false, and a non-null error string; for HTTP errors that
string is `"HTTPError: <code> <reason>"` extended, when the body could be
read, with `" - Body: "` and at most 200 characters of the body. -/
theorem fetch_error_isolated :
    ∀ (env : Env) (cid c u : String) (pre rest : List MsgResp) (code : Nat)
      (reason : String) (body : Option String) (m : String),
      env.credsOk = true → allOkSome pre = true →
      (fetch_messages env cid c u (pre ++ MsgResp.httpError code reason body :: rest) =
        (errorFetchResult cid c u (httpErrorMessage code reason body), pre.length + 1)) ∧
      (fetch_messages env cid c u (pre ++ MsgResp.exn m :: rest) =
        (errorFetchResult cid c u ("Unexpected error: " ++ m), pre.length + 1)) ∧
      (errorFetchResult cid c u (httpErrorMessage code reason body)).messages = [] ∧
      (errorFetchResult cid c u (httpErrorMessage code reason body)).has_incoming = false ∧
      (errorFetchResult cid c u (httpErrorMessage code reason body)).error =
        some (httpErrorMessage code reason body) ∧
      (∀ b, body = some b →
        httpErrorMessage code reason body =
          "HTTPError: " ++ toString code ++ " " ++ reason ++ " - Body: " ++ truncate200 b ∧
        (truncate200 b).length ≤ 200) := by
  intro env cid c u pre rest code reason body m hc hok
  refine ⟨?_, ?_, rfl, rfl, rfl, ?_⟩
  · rw [fetch_messages, if_pos hc]
    obtain ⟨acc2, heq⟩ := fetchMessagesGo_skip_prefix pre cid c u []
      (MsgResp.httpError code reason body :: rest) hok
    rw [heq]
    simp [fetchMessagesGo]
    omega
  · rw [fetch_messages, if_pos hc]
    obtain ⟨acc2, heq⟩ := fetchMessagesGo_skip_prefix pre cid c u []
      (MsgResp.exn m :: rest) hok
    rw [heq]
    simp [fetchMessagesGo]
    omega
  · rintro b rfl
    refine ⟨rfl, ?_⟩
    show (String.mk (b.data.take 200)).length ≤ 200
    have : (String.mk (b.data.take 200)).length = (b.data.take 200).length := rfl
    rw [this, List.length_take]
    exact min_le_left 200 _

/-- Witness for C5: after one successful page, a 500 response with body
"boom" aborts the fetch with the corresponding error result after exactly
two requests. -/
theorem fetch_error_isolated_witness :
    fetch_messages sampleEnv "c" "x" "y"
        ([MsgResp.ok [sampleIncoming] (some "t")] ++
          MsgResp.httpError 500 "Server Error" (some "boom") :: [MsgResp.ok [] none]) =
      (errorFetchResult "c" "x" "y" (httpErrorMessage 500 "Server Error" (some "boom")), 2) :=
  (fetch_error_isolated sampleEnv "c" "x" "y" [MsgResp.ok [sampleIncoming] (some "t")]
      [MsgResp.ok [] none] 500 "Server Error" (some "boom") "unused" rfl rfl).1

/-- C7: a normalized message copies `type`, `direction` and (as `timestamp`)
the raw `updatedAt`; its `text` is the payload's text exactly when the raw
type is `"text"` and the payload has a `text` entry, and in every other case
(non-text type, missing payload, or payload without a `text` key) it is the
placeholder `"[<type> message]"` built from the message's type (with
`"unknown"` for a missing type). -/
theorem normalize_text_rule :
    ∀ m : RawMessage,
      ((normalizeMessage m).type = m.type ∧ (normalizeMessage m).direction = m.direction ∧
        (normalizeMessage m).timestamp = m.updatedAt) ∧
      (∀ p t, m.type = some "text" → m.payload = some p → p.lookup "text" = some t →
        (normalizeMessage m).text = t) ∧
      ((m.type ≠ some "text" ∨ m.payload = none ∨
          (∀ p, m.payload = some p → p.lookup "text" = none)) →
        (normalizeMessage m).text = "[" ++ m.type.getD "unknown" ++ " message]") := by
  intro m
  refine ⟨⟨rfl, rfl, rfl⟩, ?_, ?_⟩
  · intro p t hty hp hl
    have hpe : p.isEmpty = false := by
      cases p with
      | nil => simp [List.lookup] at hl
      | cons a as => rfl
    simp [normalizeMessage, extractText, hty, hp, hpe, hl]
  · intro hcase
    by_cases hty : m.type = some "text"
    · rcases hcase with h1 | h2 | h3
      · exact absurd hty h1
      · simp [normalizeMessage, extractText, hty, h2, placeholderText]
      · cases hp : m.payload with
        | none => simp [normalizeMessage, extractText, hty, hp, placeholderText]
        | some p =>
          have hl := h3 p hp
          by_cases hpe : p.isEmpty <;>
            simp [normalizeMessage, extractText, hty, hp, hpe, hl, placeholderText]
    · simp [normalizeMessage, extractText, hty, placeholderText]

/-- Witness for C7: the sample incoming text message keeps its payload text,
and the sample non-text message gets the synthesized placeholder. -/
theorem normalize_text_rule_witness :
    (normalizeMessage sampleIncoming).text = "hi" ∧
    (normalizeMessage sampleOutgoing).text =
      "[" ++ sampleOutgoing.type.getD "unknown" ++ " message]" :=
  ⟨(normalize_text_rule sampleIncoming).2.1 [("text", "hi")] "hi" rfl rfl rfl,
    (normalize_text_rule sampleOutgoing).2.2 (Or.inl (by decide))⟩

theorem credsOk_false_of_missing (env : Env)
    (h : env.workspaceId = none ∨ env.botId = none ∨ env.token = none) :
    env.credsOk = false := by
  rcases h with h | h | h <;> simp [Env.credsOk, truthy, h]

/-- C8: called with any of the three credentials absent, `fetch_messages`
returns — instead of raising or exiting — the missing-environment result:
error set to a non-null string, empty message list, `has_incoming` false,
and zero network requests made. -/
theorem fetch_missing_creds :
    ∀ (env : Env) (cid c u : String) (srv : List MsgResp),
      (env.workspaceId = none ∨ env.botId = none ∨ env.token = none) →
      fetch_messages env cid c u srv = (missingEnvResult cid, 0) ∧
      (missingEnvResult cid).messages = [] ∧
      (missingEnvResult cid).has_incoming = false ∧
      (missingEnvResult cid).error =
        some "Missing environment variables (checked within fetch_messages)" := by
  intro env cid c u srv h
  have hc := credsOk_false_of_missing env h
  rw [fetch_messages, if_neg (by simp [hc])]
  exact ⟨rfl, rfl, rfl, rfl⟩

/-- Witness for C8: an environment with no workspace id. -/
theorem fetch_missing_creds_witness :
    fetch_messages ⟨none, some "b", some "t"⟩ "c" "x" "y" sampleMsgTrace =
      (missingEnvResult "c", 0) ∧
    (missingEnvResult "c").messages = [] ∧
    (missingEnvResult "c").has_incoming = false ∧
    (missingEnvResult "c").error =
      some "Missing environment variables (checked within fetch_messages)" :=
  fetch_missing_creds ⟨none, some "b", some "t"⟩ "c" "x" "y" sampleMsgTrace (Or.inl rfl)

/-- C9: `save_conversations_to_jsonl` opens the output path in write mode
before the credential check runs, so with any credential missing the
existing file contents are truncated to nothing even though no request is
made and nothing is saved; the `ValueError` is caught and 0 is returned. -/
theorem save_truncates_on_missing_creds :
    ∀ (env : Env) (fetch : String → String → String → FetchResult)
      (srv : List ListResp) (prev : List PersistedConversation) (maxToSave : Nat),
      (env.workspaceId = none ∨ env.botId = none ∨ env.token = none) →
      save_conversations_to_jsonl env fetch srv prev maxToSave = ([], 0, []) := by
  intro env f srv prev m h
  have hc := credsOk_false_of_missing env h
  unfold save_conversations_to_jsonl fetch_conversations_and_write
  rw [if_neg (by simp [hc])]
  rfl

/-- Witness for C9: a previous file with one record is emptied by a run
whose bot id is missing: result is an empty file, a return value of 0, and
no network events. -/
theorem save_truncates_on_missing_creds_witness :
    save_conversations_to_jsonl ⟨some "w", none, some "t"⟩ sampleFetch
        [ListResp.ok [("a", "x", "y")] none]
        [⟨"old", [], "old-date", 0, ["unread"]⟩] 5 = ([], 0, []) :=
  save_truncates_on_missing_creds ⟨some "w", none, some "t"⟩ sampleFetch
    [ListResp.ok [("a", "x", "y")] none]
    [⟨"old", [], "old-date", 0, ["unread"]⟩] 5 (Or.inr (Or.inl rfl))

/-- C10: the loader keeps a line exactly when it parses and its `messages`
value is present and non-empty; the kept records are exactly the surviving
lines in order, and when none survive `load_conversations` raises
`ValueError` instead of presenting an empty viewer. -/
theorem loader_keeps_iff :
    ∀ (lines : List JsonLine),
      ((lines.filterMap keepLine = [] →
          load_conversations lines = Except.error "No conversations found in the file") ∧
        (lines.filterMap keepLine ≠ [] →
          load_conversations lines = Except.ok (lines.filterMap keepLine))) ∧
      (∀ l cr, keepLine l = some cr ↔
        l = JsonLine.record cr ∧ ∃ msg rest, cr.messages = some (msg :: rest)) := by
  intro lines
  constructor
  · constructor
    · intro h
      simp [load_conversations, h]
    · intro h
      simp [load_conversations, List.isEmpty_iff, h]
  · intro l cr
    constructor
    · intro h
      cases l with
      | bad => simp [keepLine] at h
      | record c2 =>
        cases hm : c2.messages with
        | none => simp [keepLine, hm] at h
        | some ms =>
          cases ms with
          | nil => simp [keepLine, hm] at h
          | cons m0 ms0 =>
            simp only [keepLine, hm, Option.some.injEq] at h
            subst h
            exact ⟨rfl, m0, ms0, hm⟩
    · rintro ⟨rfl, m0, ms0, hm⟩
      simp [keepLine, hm]

/-- Witness for C10: of four lines — one unparseable, one with an empty
message list, one with no `messages` key, one with a message — only the last
survives; and a file of only unparseable lines raises. -/
theorem loader_keeps_iff_witness :
    load_conversations
        [JsonLine.bad, JsonLine.record ⟨some "e", some []⟩, JsonLine.record ⟨some "n", none⟩,
          JsonLine.record ⟨some "c", some [⟨some "text", some "incoming", some "t", "hi"⟩]⟩] =
      Except.ok
        ([JsonLine.bad, JsonLine.record ⟨some "e", some []⟩, JsonLine.record ⟨some "n", none⟩,
          JsonLine.record ⟨some "c", some [⟨some "text", some "incoming", some "t", "hi"⟩]⟩
          ].filterMap keepLine) ∧
    load_conversations [JsonLine.bad] =
      Except.error "No conversations found in the file" :=
  ⟨(loader_keeps_iff
        [JsonLine.bad, JsonLine.record ⟨some "e", some []⟩, JsonLine.record ⟨some "n", none⟩,
          JsonLine.record ⟨some "c", some [⟨some "text", some "incoming", some "t", "hi"⟩]⟩
          ]).1.2 (by decide),
    (loader_keeps_iff [JsonLine.bad]).1.1 (by decide)⟩

end BPChat
